import Mathlib

/-!
Verification development for the LogParser repository.

Python strings are modelled as lists of characters (Python indexes strings
by code point), Python integers as Int, decoded JSON values by the
inductive type Py below (json.loads maps JSON null to Python None, so a
single value type covers both), and Python dicts as association lists in
insertion order with overwrite-in-place semantics.  Exceptions are
modelled with Except.  File access is modelled by a map from paths to a
file state (missing, read error, or a list of lines), and text printed to
standard output is collected in a list.
-/

namespace LogParser

/-- Python strings as lists of code points. -/
abbrev Str : Type := List Char

/-- Shorthand turning a Lean string literal into the model type. -/
def chars (s : String) : Str := s.toList

/-- The whitespace test of Python str.isspace and of the regex class
backslash-s, restricted to the ASCII range (the inputs of this
development stay in that range where whitespace matters). -/
def pyIsSpace (c : Char) : Bool :=
  c = ' ' || c = '\t' || c = '\n' || c = '\r' || c = '\x0b' || c = '\x0c'

/-- Python str.strip: drop whitespace from both ends. -/
def pyStrip (s : Str) : Str :=
  ((s.dropWhile pyIsSpace).reverse.dropWhile pyIsSpace).reverse

/-- All start indices at which pat occurs in s, ascending; the next search
resumes one character later, as the find loop in LogParser does
(pos = text.find(keyword, pos + 1)). -/
def occAux (pat : Str) : Str → Nat → List Nat
  | [], i => if pat = [] then [i] else []
  | c :: cs, i =>
    if pat.isPrefixOf (c :: cs) then i :: occAux pat cs (i + 1)
    else occAux pat cs (i + 1)

/-- All occurrences of pat in s (start indices, ascending). -/
def occurrences (s pat : Str) : List Nat := occAux pat s 0

/-- Python str.find: first start index of pat in s, or none for -1. -/
def findSub (s pat : Str) : Option Nat := (occurrences s pat).head?

/-- Python str.rfind: last start index of pat in s, or none for -1. -/
def rfindSub (s pat : Str) : Option Nat := (occurrences s pat).getLast?

/-- Python str.find(c, i): first index j at least i with s[j] = c. -/
def findCharAux (c : Char) : Str → Nat → Option Nat
  | [], _ => none
  | x :: xs, i => if x = c then some i else findCharAux c xs (i + 1)

/-- Python s.find(c, i) for a single character c, searching from index i. -/
def findCharFrom (s : Str) (c : Char) (i : Nat) : Option Nat :=
  findCharAux c (s.drop i) i

/-- Python str.replace for a nonempty pattern: replace all non-overlapping
occurrences, scanning left to right.  Each step consumes at least one
character, so fuel equal to the length of the string suffices; the
recursion is on the fuel to keep the function reducible. -/
def pyReplaceFuel (fuel : Nat) (p : Char) (ps rep : Str) (s : Str) : Str :=
  match fuel with
  | 0 => s
  | fuel + 1 =>
    match s with
    | [] => []
    | c :: rest =>
      if (p :: ps).isPrefixOf (c :: rest)
      then rep ++ pyReplaceFuel fuel p ps rep (rest.drop ps.length)
      else c :: pyReplaceFuel fuel p ps rep rest

/-- Python str.replace (an empty pattern is never used in the source). -/
def pyReplace (s pat rep : Str) : Str :=
  match pat with
  | [] => s
  | p :: ps => pyReplaceFuel s.length p ps rep s

mutual
/-- Python values as they arise from json.loads and the extraction code:
None, bool, int, float (kept as its lexeme, unused by the claims),
str, list, dict (insertion-ordered key/value sequence). -/
inductive Py : Type where
  | none : Py
  | bool : Bool → Py
  | int : Int → Py
  | float : Str → Py
  | str : Str → Py
  | list : PyList → Py
  | dict : PyDict → Py
deriving DecidableEq
/-- A Python list of values. -/
inductive PyList : Type where
  | nil : PyList
  | cons : Py → PyList → PyList
deriving DecidableEq
/-- A Python dict in insertion order. -/
inductive PyDict : Type where
  | nil : PyDict
  | cons : Str → Py → PyDict → PyDict
deriving DecidableEq
end

instance : Inhabited Py := ⟨Py.none⟩

instance : Inhabited PyList := ⟨PyList.nil⟩

instance : Inhabited PyDict := ⟨PyDict.nil⟩

/-- Build a Python list value from a Lean list. -/
def toPyList : List Py → PyList
  | [] => .nil
  | x :: xs => .cons x (toPyList xs)

/-- Python truthiness for the modelled values.  A float is falsy exactly
when it is zero: its lexeme (as produced by the number parser below) then
holds no nonzero digit and is not one of the Infinity and NaN forms,
which are truthy; the claims never exercise floats. -/
def pyTruthy : Py → Bool
  | .none => false
  | .bool b => b
  | .int n => n ≠ 0
  | .float lex => lex.any (fun c => ('1' ≤ c && c ≤ '9') || c = 'I' || c = 'N')
  | .str s => !s.isEmpty
  | .list .nil => false
  | .list (.cons _ _) => true
  | .dict .nil => false
  | .dict (.cons _ _ _) => true

/-- Python dict.get(k, default). -/
def pyGet (m : PyDict) (k : Str) (d : Py) : Py :=
  match m with
  | .nil => d
  | .cons k' v rest => if k' = k then v else pyGet rest k d

/-- Python d[k] = v on a dict value: overwrite in place if the key exists,
else append. -/
def pyDictSet (m : PyDict) (k : Str) (v : Py) : PyDict :=
  match m with
  | .nil => .cons k v .nil
  | .cons k' v' rest =>
    if k' = k then .cons k' v rest else .cons k' v' (pyDictSet rest k v)

/-- The record a line parses to: a Python dict in insertion order, kept as
an association list (records are never nested back inside JSON values). -/
abbrev Rec : Type := List (Str × Py)

/-- Python r.get(k) on a record, distinguishing an absent key (Option.none)
from a key mapped to Python None (some Py.none). -/
def recGet (r : Rec) (k : Str) : Option Py :=
  match r with
  | [] => Option.none
  | (k', v) :: rest => if k' = k then some v else recGet rest k

/-- Python r[k] = v on a record. -/
def recSet (r : Rec) (k : Str) (v : Py) : Rec :=
  match r with
  | [] => [(k, v)]
  | (k', v') :: rest =>
    if k' = k then (k', v) :: rest else (k', v') :: recSet rest k v

/-- Python k in r on a record. -/
def recHasKey (r : Rec) (k : Str) : Bool :=
  match r with
  | [] => false
  | (k', _) :: rest => k' = k || recHasKey rest k

/-- The exceptions the parsing pipeline distinguishes: json.JSONDecodeError,
TypeError (json.loads applied to a non-string), AttributeError (attribute
access such as .get or .find on a value lacking it). -/
inductive Exc : Type where
  | jsonDecodeError : Exc
  | typeError : Exc
  | attributeError : Exc
deriving DecidableEq

/-- JSON inter-token whitespace (RFC 8259: space, tab, newline, return). -/
def jsonWs (c : Char) : Bool :=
  c = ' ' || c = '\t' || c = '\n' || c = '\r'

/-- Skip JSON whitespace. -/
def skipJWs (s : Str) : Str := s.dropWhile jsonWs

/-- Value of one hex digit. -/
def hexVal (c : Char) : Option Nat :=
  if '0' ≤ c ∧ c ≤ '9' then some (c.toNat - '0'.toNat)
  else if 'a' ≤ c ∧ c ≤ 'f' then some (c.toNat - 'a'.toNat + 10)
  else if 'A' ≤ c ∧ c ≤ 'F' then some (c.toNat - 'A'.toNat + 10)
  else Option.none

/-- Value of four hex digits. -/
def hex4 (a b c d : Char) : Option Nat := do
  let x ← hexVal a
  let y ← hexVal b
  let z ← hexVal c
  let w ← hexVal d
  pure (((x * 16 + y) * 16 + z) * 16 + w)

/-- Body of a JSON string after the opening quote: stops at the closing
quote, decodes the escapes, rejects raw control characters (strict mode).
A lone surrogate escape, which Python would keep as a surrogate code unit,
has no Char counterpart and is rejected by the model. -/
def parseJStrAux (fuel : Nat) (s : Str) (acc : Str) : Except Exc (Str × Str) :=
  match fuel with
  | 0 => .error .jsonDecodeError
  | fuel + 1 =>
    match s with
    | [] => .error .jsonDecodeError
    | '"' :: rest => .ok (acc.reverse, rest)
    | '\\' :: esc =>
      match esc with
      | '"' :: r => parseJStrAux fuel r ('"' :: acc)
      | '\\' :: r => parseJStrAux fuel r ('\\' :: acc)
      | '/' :: r => parseJStrAux fuel r ('/' :: acc)
      | 'b' :: r => parseJStrAux fuel r ('\x08' :: acc)
      | 'f' :: r => parseJStrAux fuel r ('\x0c' :: acc)
      | 'n' :: r => parseJStrAux fuel r ('\n' :: acc)
      | 'r' :: r => parseJStrAux fuel r ('\r' :: acc)
      | 't' :: r => parseJStrAux fuel r ('\t' :: acc)
      | 'u' :: a :: b :: c :: d :: r =>
        match hex4 a b c d with
        | Option.none => .error .jsonDecodeError
        | some n =>
          if n < 0xD800 ∨ 0xE000 ≤ n then
            parseJStrAux fuel r (Char.ofNat n :: acc)
          else if n < 0xDC00 then
            match r with
            | '\\' :: 'u' :: a2 :: b2 :: c2 :: d2 :: r2 =>
              match hex4 a2 b2 c2 d2 with
              | some m =>
                if 0xDC00 ≤ m ∧ m < 0xE000 then
                  parseJStrAux fuel r2
                    (Char.ofNat (0x10000 + (n - 0xD800) * 0x400 + (m - 0xDC00)) :: acc)
                else .error .jsonDecodeError
              | Option.none => .error .jsonDecodeError
            | _ => .error .jsonDecodeError
          else .error .jsonDecodeError
      | _ => .error .jsonDecodeError
    | c :: rest =>
      if c.toNat < 0x20 then .error .jsonDecodeError
      else parseJStrAux fuel rest (c :: acc)

/-- Numeric value of a digit run. -/
def natOfDigits (ds : Str) : Nat :=
  ds.foldl (fun a c => a * 10 + (c.toNat - '0'.toNat)) 0

/-- An optional JSON exponent part at r: (present, extra length, rest). -/
def parseExpPart (r : Str) : Except Exc (Bool × Nat × Str) :=
  match r with
  | e :: rest =>
    if e = 'e' ∨ e = 'E' then
      let sLen : Nat :=
        if rest.head? = some '+' ∨ rest.head? = some '-' then 1 else 0
      let rest1 := rest.drop sLen
      let ed := rest1.takeWhile Char.isDigit
      if ed.isEmpty then .error .jsonDecodeError
      else .ok (true, 1 + sLen + ed.length, rest1.drop ed.length)
    else .ok (false, 0, r)
  | [] => .ok (false, 0, r)

/-- A JSON number (Python json also accepts Infinity, -Infinity and NaN):
an integer becomes Py.int, any form with a fraction or exponent keeps its
lexeme as Py.float. -/
def parseNumber (s : Str) : Except Exc (Py × Str) :=
  let signLen : Nat := if s.head? = some '-' then 1 else 0
  let s1 := s.drop signLen
  if (chars "Infinity").isPrefixOf s1 then
    .ok (.float (s.take (signLen + 8)), s1.drop 8)
  else
    let ip := s1.takeWhile Char.isDigit
    let r2 := s1.dropWhile Char.isDigit
    if ip.isEmpty then .error .jsonDecodeError
    else if ip.head? = some '0' ∧ 1 < ip.length then .error .jsonDecodeError
    else
      let intLen := signLen + ip.length
      match r2 with
      | '.' :: r =>
        let fd := r.takeWhile Char.isDigit
        if fd.isEmpty then .error .jsonDecodeError
        else
          match parseExpPart (r.drop fd.length) with
          | .error e => .error e
          | .ok (_, eLen, rest) =>
            .ok (.float (s.take (intLen + 1 + fd.length + eLen)), rest)
      | _ =>
        match parseExpPart r2 with
        | .error e => .error e
        | .ok (expP, eLen, rest) =>
          if expP then .ok (.float (s.take (intLen + eLen)), rest)
          else
            let v : Int := natOfDigits ip
            .ok (.int (if signLen = 1 then -v else v), rest)

mutual
/-- One JSON value at s (s already stripped of leading whitespace):
returns the value and the unconsumed rest. -/
def parseVal (fuel : Nat) (s : Str) : Except Exc (Py × Str) :=
  match fuel with
  | 0 => .error .jsonDecodeError
  | fuel + 1 =>
    match s with
    | '\x7b' :: rest => parseObjBody fuel (skipJWs rest) .nil
    | '[' :: rest => parseArrBody fuel (skipJWs rest) []
    | '"' :: rest =>
      match parseJStrAux fuel rest [] with
      | .ok (content, r) => .ok (.str content, r)
      | .error e => .error e
    | 't' :: 'r' :: 'u' :: 'e' :: rest => .ok (.bool true, rest)
    | 'f' :: 'a' :: 'l' :: 's' :: 'e' :: rest => .ok (.bool false, rest)
    | 'n' :: 'u' :: 'l' :: 'l' :: rest => .ok (.none, rest)
    | 'N' :: 'a' :: 'N' :: rest => .ok (.float (chars "NaN"), rest)
    | _ => parseNumber s

/-- Object members after the opening brace and whitespace; duplicate keys
overwrite in place as a Python dict does. -/
def parseObjBody (fuel : Nat) (s : Str) (acc : PyDict) : Except Exc (Py × Str) :=
  match fuel with
  | 0 => .error .jsonDecodeError
  | fuel + 1 =>
    match s with
    | '\x7d' :: rest => .ok (.dict acc, rest)
    | '"' :: rest =>
      match parseJStrAux fuel rest [] with
      | .error e => .error e
      | .ok (key, r1) =>
        match skipJWs r1 with
        | ':' :: r2 =>
          match parseVal fuel (skipJWs r2) with
          | .error e => .error e
          | .ok (v, r3) => parseObjRest fuel (skipJWs r3) (pyDictSet acc key v)
        | _ => .error .jsonDecodeError
    | _ => .error .jsonDecodeError

/-- After one object member: a comma and another member, or the closer. -/
def parseObjRest (fuel : Nat) (s : Str) (acc : PyDict) : Except Exc (Py × Str) :=
  match fuel with
  | 0 => .error .jsonDecodeError
  | fuel + 1 =>
    match s with
    | '\x7d' :: rest => .ok (.dict acc, rest)
    | ',' :: rest =>
      match skipJWs rest with
      | '"' :: r =>
        match parseJStrAux fuel r [] with
        | .error e => .error e
        | .ok (key, r1) =>
          match skipJWs r1 with
          | ':' :: r2 =>
            match parseVal fuel (skipJWs r2) with
            | .error e => .error e
            | .ok (v, r3) => parseObjRest fuel (skipJWs r3) (pyDictSet acc key v)
          | _ => .error .jsonDecodeError
      | _ => .error .jsonDecodeError
    | _ => .error .jsonDecodeError

/-- Array elements after the opening bracket and whitespace. -/
def parseArrBody (fuel : Nat) (s : Str) (acc : List Py) : Except Exc (Py × Str) :=
  match fuel with
  | 0 => .error .jsonDecodeError
  | fuel + 1 =>
    match s with
    | ']' :: rest => .ok (.list (toPyList acc.reverse), rest)
    | _ =>
      match parseVal fuel s with
      | .error e => .error e
      | .ok (v, r1) => parseArrRest fuel (skipJWs r1) (v :: acc)

/-- After one array element: a comma and another element, or the closer. -/
def parseArrRest (fuel : Nat) (s : Str) (acc : List Py) : Except Exc (Py × Str) :=
  match fuel with
  | 0 => .error .jsonDecodeError
  | fuel + 1 =>
    match s with
    | ']' :: rest => .ok (.list (toPyList acc.reverse), rest)
    | ',' :: rest =>
      match parseVal fuel (skipJWs rest) with
      | .error e => .error e
      | .ok (v, r1) => parseArrRest fuel (skipJWs r1) (v :: acc)
    | _ => .error .jsonDecodeError
end

/-- Embedding of json.loads on a Python str: parse one value surrounded by
optional whitespace; anything else raises json.JSONDecodeError. -/
def loads (s : Str) : Except Exc Py :=
  match parseVal (8 * s.length + 16) (skipJWs s) with
  | .error e => .error e
  | .ok (v, rest) =>
    if (skipJWs rest).isEmpty then .ok v else .error .jsonDecodeError

/-- create_empty_result (field_extractor.py lines 38-49): the three core
fields explicitly present and None. -/
def createEmptyResult : Rec :=
  [(chars "query", Py.none), (chars "bill_info", Py.none), (chars "reply", Py.none)]

/-- The Python idiom x or None: a truthy value passes through, a falsy one
becomes None. -/
def orNone (v : Py) : Py := if pyTruthy v then v else Py.none

/-- extract_fields_from_log_data (field_extractor.py lines 7-35), with the
bill extraction function passed in as in the source; .get on a non-dict
value raises AttributeError. -/
def extractFieldsFromLogData (billF : Py → Except Exc (Option Str)) (logData : Py) :
    Except Exc Rec :=
  match logData with
  | .dict m =>
    match billF logData with
    | .error e => .error e
    | .ok bill =>
      .ok [ (chars "query", orNone (pyGet m (chars "messageUser") Py.none)),
            (chars "bill_info",
              match bill with | some b => Py.str b | Option.none => Py.none),
            (chars "reply", orNone (pyGet m (chars "reply") Py.none)),
            (chars "user_id", pyGet m (chars "userId") Py.none),
            (chars "session_id", orNone (pyGet m (chars "sessionId") (Py.str []))),
            (chars "user_intention",
              orNone (pyGet m (chars "userIntention") (Py.str []))),
            (chars "success_flag", pyGet m (chars "successFlag") Py.none) ]
  | _ => .error .attributeError

/-- The bracket-matching loop of _find_bill_list (log_parser.py lines
170-183), started at the opening bracket with count zero: increment on an
opening bracket, decrement on a closing one, and return the span walked so
far (as a prefix of the input) the first time the count reaches zero. -/
def bracketScanPre : Str → Int → Option Str
  | [], _ => Option.none
  | c :: rest, cnt =>
    if c = '[' then (bracketScanPre rest (cnt + 1)).map (c :: ·)
    else if c = ']' then
      (if cnt - 1 = 0 then some [c]
       else (bracketScanPre rest (cnt - 1)).map (c :: ·))
    else (bracketScanPre rest cnt).map (c :: ·)

/-- One iteration of the reversed scan in _find_bill_list (lines 160-183),
at the position just after one marker occurrence: skip whitespace; at the
end of the text, or at a character other than an opening bracket, or when
the bracket match never closes, the occurrence yields nothing and the scan
moves on; otherwise the stripped matched span is returned. -/
def tryOccurrence (text : Str) (start : Nat) : Option Str :=
  let sp := start + ((text.drop start).takeWhile pyIsSpace).length
  match text.drop sp with
  | [] => Option.none
  | c :: rest =>
    if c = '[' then
      match bracketScanPre (c :: rest) 0 with
      | some span => some (pyStrip span)
      | Option.none => Option.none
    else Option.none

/-- LogParser._find_bill_list (log_parser.py lines 140-185): collect the
positions after every marker occurrence, scan them right to left, and
return the first complete bracketed span. -/
def findBillList (text : Str) : Option Str :=
  ((occurrences text (chars "账单:")).map (· + 3)).reverse.findSome?
    (tryOccurrence text)

/-- The inner field read of one source block of _extract_bill_info: read
the inner key of the decoded dict (default empty string); a falsy value is
skipped; a truthy non-string makes _find_bill_list raise AttributeError,
which the block catches; a truthy string is searched with _find_bill_list
and the result kept only when truthy (the if bill_info: guard). -/
def billInner (im : PyDict) (innerKey : Str) : Option Str :=
  match pyGet im innerKey (Py.str []) with
  | Py.str t =>
    if t.isEmpty then Option.none
    else
      match findBillList t with
      | some b => if b.isEmpty then Option.none else some b
      | Option.none => Option.none
  | _ => Option.none

/-- The part of a source block after a successful nested decode: a decoded
non-dict makes the .get raise AttributeError, which the block catches. -/
def billFromDecoded (inner : Py) (innerKey : Str) : Option Str :=
  match inner with
  | Py.dict im => billInner im innerKey
  | _ => Option.none

/-- One source block of _extract_bill_info as a whole (lines 107-118 and
120-131): a falsy outer value is skipped; a truthy non-string makes
json.loads raise TypeError, which nothing catches; a decode failure is
caught and yields no candidate. -/
def billCandidate (m : PyDict) (outerKey innerKey : Str) : Except Exc (Option Str) :=
  match pyGet m outerKey (Py.str []) with
  | Py.str s =>
    if s.isEmpty then .ok Option.none
    else
      match loads s with
      | .error _ => .ok Option.none
      | .ok inner => .ok (billFromDecoded inner innerKey)
  | v => if pyTruthy v then .error .typeError else .ok Option.none

/-- LogParser._extract_bill_info (log_parser.py lines 93-138): the two
source blocks append their candidates to bill_matches in order
(analysisResult first, promptParam second) and the last match wins. -/
def extractBillInfo (logData : Py) : Except Exc (Option Str) :=
  match logData with
  | .dict m =>
    match billCandidate m (chars "analysisResult") (chars "message_interpretation") with
    | .error e => .error e
    | .ok c1 =>
      match billCandidate m (chars "promptParam") (chars "reference") with
      | .error e => .error e
      | .ok c2 => .ok (c1.toList ++ c2.toList).getLast?
  | _ => .error .attributeError

/-- Leftmost-match search: try the matcher at every start position of the
line, earliest success wins, as re.search does for the anchored patterns
of _fallback_parse. -/
def scanFor {α : Type} (f : Str → Option α) : Str → Option α
  | [] => f []
  | c :: rest =>
    match f (c :: rest) with
    | some v => some v
    | Option.none => scanFor f rest

/-- Matcher at one position for a pattern of the shape: double-quoted key,
optional whitespace, colon, optional whitespace, double-quoted capture of
characters other than a double quote. -/
def tryQuotedKeyAt (key : Str) (suffix : Str) : Option Str :=
  if ('"' :: key ++ ['"']).isPrefixOf suffix then
    match (suffix.drop (key.length + 2)).dropWhile pyIsSpace with
    | ':' :: r2 =>
      match r2.dropWhile pyIsSpace with
      | '"' :: r3 =>
        let cap := r3.takeWhile (fun c => c ≠ '"')
        if cap.length < r3.length then some cap else Option.none
      | _ => Option.none
    | _ => Option.none
  else Option.none

/-- re.search for the quoted-key patterns of _fallback_parse (lines 201,
248, 252). -/
def searchQuotedKey (line key : Str) : Option Str := scanFor (tryQuotedKeyAt key) line

/-- Matcher at one position for the userId pattern (line 244): quoted key,
optional whitespace, colon, optional whitespace, a nonempty digit run,
converted by int. -/
def tryUserIdAt (suffix : Str) : Option Int :=
  if (chars "\"userId\"").isPrefixOf suffix then
    match (suffix.drop 8).dropWhile pyIsSpace with
    | ':' :: r2 =>
      let r3 := r2.dropWhile pyIsSpace
      let ds := r3.takeWhile Char.isDigit
      if ds.isEmpty then Option.none else some (natOfDigits ds : Int)
    | _ => Option.none
  else Option.none

/-- Matcher at one position for the bill pattern of _fallback_parse (line
239), with DOTALL: after the marker, a whitespace run must be followed by
an opening bracket, and the non-greedy capture runs to the first closing
bracket anywhere after it. -/
def tryBillAt (suffix : Str) : Option Str :=
  if (chars "账单:").isPrefixOf suffix then
    match (suffix.drop 3).dropWhile pyIsSpace with
    | '[' :: r =>
      if (r.takeWhile (fun c => c ≠ ']')).length < r.length then
        some ('[' :: r.takeWhile (fun c => c ≠ ']') ++ [']'])
      else Option.none
    | _ => Option.none
  else Option.none

/-- The character loop of the fallback reply extraction (log_parser.py
lines 214-230), over the suffix of the line starting at value_start,
carrying the running index and the escape flag: a backslash toggles the
flag; an ASCII double quote with the flag clear stops the scan when the
first non-whitespace character after it is a comma, a closing brace or a
newline; every other character leaves the flag unchanged.  Returns the
final value_end. -/
def replyScanAux : Str → Nat → Bool → Nat
  | [], i, _ => i
  | c :: rest, i, esc =>
    if c = '\\' then replyScanAux rest (i + 1) (!esc)
    else if c = '"' ∧ esc = false then
      match rest.dropWhile pyIsSpace with
      | [] => replyScanAux rest (i + 1) esc
      | nc :: _ =>
        if nc = ',' ∨ nc = '\x7d' ∨ nc = '\n' then i
        else replyScanAux rest (i + 1) esc
    else replyScanAux rest (i + 1) esc

/-- The reply block of _fallback_parse (lines 205-236): anchor at the
literal substring, take the first double quote after it, scan for the
terminating quote, and on success unescape the two escape forms by two
sequential replacements. -/
def replyExtract (line : Str) : Option Str :=
  match findSub line (chars "\"reply\":") with
  | Option.none => Option.none
  | some rs =>
    match findCharFrom line '"' (rs + 8) with
    | Option.none => Option.none
    | some q =>
      let vs := q + 1
      let ve := replyScanAux (line.drop vs) vs false
      if ve < line.length then
        some (pyReplace (pyReplace ((line.drop vs).take (ve - vs))
          (chars "\\\"") (chars "\"")) (chars "\\\\") (chars "\\"))
      else Option.none

/-- LogParser._fallback_parse (log_parser.py lines 187-265): independent
best-effort extraction of each field; the three core keys are added at the
end when missing, and the function always returns a dict (the Optional in
its annotation notwithstanding: its final statement returns result
unconditionally). Each conditional assignment of the source is one
setOpt application: set the key when its pattern matched. -/
def setOpt (r : Rec) (k : Str) (v : Option Py) : Rec :=
  match v with
  | some x => recSet r k x
  | Option.none => r

/-- The ensure-core-key step at the end of _fallback_parse (lines
256-262): add the key mapped to None when it is absent. -/
def ensureKey (r : Rec) (k : Str) : Rec :=
  if recHasKey r k then r else recSet r k Py.none

def fallbackParse (line : Str) : Rec :=
  ensureKey (ensureKey (ensureKey
    (setOpt (setOpt (setOpt (setOpt (setOpt (setOpt []
      (chars "query") ((searchQuotedKey line (chars "messageUser")).map Py.str))
      (chars "reply") ((replyExtract line).map Py.str))
      (chars "bill_info") ((scanFor tryBillAt line).map Py.str))
      (chars "user_id") ((scanFor tryUserIdAt line).map Py.int))
      (chars "session_id") ((searchQuotedKey line (chars "sessionId")).map Py.str))
      (chars "user_intention") ((searchQuotedKey line (chars "userIntention")).map Py.str))
    (chars "query")) (chars "bill_info")) (chars "reply")

/-- The brace-counting scan of parse_log_line (lines 49-58): the index one
past the closing brace that first returns the count to zero, else the
default (the whole length). -/
def braceEndAux : Str → Int → Nat → Nat → Nat
  | [], _, _, dflt => dflt
  | c :: rest, cnt, i, dflt =>
    if c = '\x7b' then braceEndAux rest (cnt + 1) (i + 1) dflt
    else if c = '\x7d' then
      (if cnt - 1 = 0 then i + 1 else braceEndAux rest (cnt - 1) (i + 1) dflt)
    else braceEndAux rest cnt (i + 1) dflt

/-- Entry point of the brace scan on a candidate string. -/
def braceEnd (js : Str) : Nat := braceEndAux js 0 0 js.length

/-- The candidate location step of parse_log_line (lines 35-60): the text
after the last three-character separator if present, else from the first
opening brace; in both cases cut at the balancing closing brace.  None
exactly when the line has neither the separator nor an opening brace
(line 44: return None). -/
def locateCandidate (line : Str) : Option Str :=
  match rfindSub line (chars " - ") with
  | some d =>
    let js := line.drop (d + 3)
    some (js.take (braceEnd js))
  | Option.none =>
    match findSub line (chars "\x7b") with
    | Option.none => Option.none
    | some i =>
      let js := line.drop i
      some (js.take (braceEnd js))

/-- The body of parse_log_line inside the outer try (lines 30-75), with
the inner decode-failure handler already applied: .ok Option.none models
the return None of line 44; on a decode failure of the candidate the
fallback runs at once (lines 65-69) and, since _fallback_parse always
returns a dict, its result is returned (the empty-result return of line
71 is unreachable); an error carries the exception and the json_str in
scope for the outer handlers. -/
def parseLogLineCore (logLine : Str) : Except (Exc × Str) (Option Rec) :=
  let line := pyStrip logLine
  match locateCandidate line with
  | Option.none => .ok Option.none
  | some jsonStr =>
    match loads jsonStr with
    | .error _ => .ok (some (fallbackParse line))
    | .ok logData =>
      match extractFieldsFromLogData extractBillInfo logData with
      | .ok r => .ok (some r)
      | .error e => .error (e, jsonStr)

/-- LogParser.parse_log_line (log_parser.py lines 20-91): the core body
plus the outer handlers: on a JSONDecodeError the quote-repair re-decode
of lines 77-88 (single quotes replaced by double quotes, a second failure
or any error in the re-extraction giving the empty result); on any other
exception the empty result (lines 89-91). -/
def parseLogLine (logLine : Str) : Option Rec :=
  match parseLogLineCore logLine with
  | .ok r => r
  | .error (.jsonDecodeError, jsonStr) =>
    match loads (pyReplace jsonStr (chars "'") (chars "\"")) with
    | .ok logData =>
      match extractFieldsFromLogData extractBillInfo logData with
      | .ok r => some r
      | .error _ => some createEmptyResult
    | .error _ => some createEmptyResult
  | .error _ => some createEmptyResult

/-- The state of one file: absent, unreadable (with the message text the
exception would print), or a list of raw lines. -/
inductive FsEntry : Type where
  | missing : FsEntry
  | readError : Str → FsEntry
  | lines : List Str → FsEntry

/-- The file system as a map from paths to file states. -/
abbrev Fs : Type := Str → FsEntry

/-- Decimal rendering of a line number. -/
def natChars (n : Nat) : Str := chars (toString n)

/-- LogParser.parse_log_file (log_parser.py lines 288-321), returning the
messages printed to standard output together with the result list: blank
lines are skipped; a parsed record gets line_number attached; a None from
parse_log_line prints the per-line warning; a missing or unreadable file
is caught (lines 316-319), a message is printed, and the collected
results are returned normally. -/
def parseLogFile (fs : Fs) (path : Str) : List Str × List Rec :=
  match fs path with
  | .missing => ([chars "错误: 文件不存在 - " ++ path], [])
  | .readError m => ([chars "读取文件错误: " ++ m], [])
  | .lines ls =>
    (List.enumFrom 1 ls).foldl
      (fun acc p =>
        let line := pyStrip p.2
        if line.isEmpty then acc
        else
          match parseLogLine line with
          | some r => (acc.1, acc.2 ++ [recSet r (chars "line_number") (.int p.1)])
          | Option.none =>
            (acc.1 ++ [chars "警告: 第" ++ natChars p.1 ++ chars "行解析失败"], acc.2))
      ([], [])

/-- LogParser.parse_log_file_stream (log_parser.py lines 323-350): the
same per-line behaviour as parse_log_file, with the records yielded one at
a time; the model collects the yielded sequence. -/
def parseLogFileStream (fs : Fs) (path : Str) : List Str × List Rec :=
  match fs path with
  | .missing => ([chars "错误: 文件不存在 - " ++ path], [])
  | .readError m => ([chars "读取文件错误: " ++ m], [])
  | .lines ls =>
    (List.enumFrom 1 ls).foldl
      (fun acc p =>
        let line := pyStrip p.2
        if line.isEmpty then acc
        else
          match parseLogLine line with
          | some r => (acc.1, acc.2 ++ [recSet r (chars "line_number") (.int p.1)])
          | Option.none =>
            (acc.1 ++ [chars "警告: 第" ++ natChars p.1 ++ chars "行解析失败"], acc.2))
      ([], [])

/-- The per-record None-to-empty-string conversion of the CSV writers
(save_results lines 384-391 and save_results_stream lines 450-457). -/
def csvRow (r : Rec) : Rec :=
  r.map (fun kv => match kv.2 with | Py.none => (kv.1, Py.str []) | v => (kv.1, v))

/-- One hex digit of the control-character escape of the JSON encoder. -/
def hexDigit (n : Nat) : Char :=
  if n < 10 then Char.ofNat ('0'.toNat + n) else Char.ofNat ('a'.toNat + n - 10)

/-- Embedding of the string encoder of json.dump with ensure_ascii=False:
quote and backslash are escaped, the named control escapes are used, the
remaining control characters take the four-digit form, and every other
character is written as itself. -/
def escChar (c : Char) : Str :=
  if c = '"' then ['\\', '"']
  else if c = '\\' then ['\\', '\\']
  else if c = '\n' then ['\\', 'n']
  else if c = '\t' then ['\\', 't']
  else if c = '\r' then ['\\', 'r']
  else if c = '\x08' then ['\\', 'b']
  else if c = '\x0c' then ['\\', 'f']
  else if c.toNat < 0x20 then
    ['\\', 'u', '0', '0', hexDigit (c.toNat / 16), hexDigit (c.toNat % 16)]
  else [c]

/-- A JSON string literal for s. -/
def dumpStr (s : Str) : Str := '"' :: (s.map escChar).flatten ++ ['"']

mutual
/-- Embedding of json.dump on a Python value (ensure_ascii=False): the
member structure the sink writes.  The indent argument of the source
(save_results line 366) only inserts whitespace and newlines around the
members and separators and is abstracted away; a float is written as its
lexeme. -/
def dumpPy : Py → Str
  | .none => chars "null"
  | .bool true => chars "true"
  | .bool false => chars "false"
  | .int n => chars (toString n)
  | .float lex => lex
  | .str s => dumpStr s
  | .list xs => '[' :: dumpPyListBody xs true ++ [']']
  | .dict m => '\x7b' :: dumpPyDictBody m true ++ ['\x7d']
/-- Array elements, comma separated, with a first-element flag as the
encoder loop carries. -/
def dumpPyListBody : PyList → Bool → Str
  | .nil, _ => []
  | .cons x rest, first =>
    (if first then [] else chars ", ") ++ dumpPy x ++ dumpPyListBody rest false
/-- Object members, comma separated, with a first-member flag. -/
def dumpPyDictBody : PyDict → Bool → Str
  | .nil, _ => []
  | .cons k v rest, first =>
    (if first then [] else chars ", ") ++ dumpStr k ++ chars ": " ++ dumpPy v ++
      dumpPyDictBody rest false
end

/-- The serialized member for one record entry. -/
def dumpMember (kv : Str × Py) : Str := dumpStr kv.1 ++ chars ": " ++ dumpPy kv.2

/-- The members a record serializes to, in insertion order. -/
def dumpMembers (r : Rec) : List Str := r.map dumpMember

/-- The member loop of json.dump on one record dict. -/
def dumpRecBody : Rec → Bool → Str
  | [], _ => []
  | (k, v) :: rest, first =>
    (if first then [] else chars ", ") ++ dumpStr k ++ chars ": " ++ dumpPy v ++
      dumpRecBody rest false

/-- json.dump on one record dict: the braces around the member loop. -/
def dumpRec (r : Rec) : Str := '\x7b' :: dumpRecBody r true ++ ['\x7d']

/-- Members joined by a separator. -/
def joinSep (sep : Str) : List Str → Str
  | [] => []
  | [m] => m
  | m :: rest => m ++ sep ++ joinSep sep rest

/-! Helper lemmas shared by the claim theorems. -/

/-- A successful findSome? splits the list: everything before the hit
yields nothing. -/
theorem findSome_split {α β : Type} (f : α → Option β) :
    ∀ (l : List α) (b : β), l.findSome? f = some b →
      ∃ l₁ a l₂, l = l₁ ++ a :: l₂ ∧ (∀ x ∈ l₁, f x = Option.none) ∧ f a = some b := by
  intro l
  induction l with
  | nil => intro b h; simp [List.findSome?] at h
  | cons a t ih =>
    intro b h
    rw [List.findSome?] at h
    cases hf : f a with
    | some v =>
      rw [hf] at h
      exact ⟨[], a, t, by simp, by simp, by simpa [hf] using h⟩
    | none =>
      rw [hf] at h
      obtain ⟨l₁, x, l₂, hsplit, hnone, hx⟩ := ih b h
      exact ⟨a :: l₁, x, l₂, by simp [hsplit], by
        intro y hy
        rcases List.mem_cons.mp hy with rfl | hy'
        · exact hf
        · exact hnone y hy', hx⟩

/-- Looking a key up after a set: the set key wins, others are unchanged. -/
theorem recGet_recSet (r : Rec) (k k' : Str) (v : Py) :
    recGet (recSet r k v) k' = if k = k' then some v else recGet r k' := by
  induction r with
  | nil => by_cases h : k = k' <;> simp [recSet, recGet, h]
  | cons kv t ih =>
    obtain ⟨k0, v0⟩ := kv
    by_cases h0 : k0 = k
    · subst h0
      by_cases h1 : k0 = k'
      · subst h1
        simp [recSet, recGet]
      · simp [recSet, recGet, h1]
    · by_cases h1 : k0 = k'
      · subst h1
        have hk : ¬ k = k0 := fun h => h0 h.symm
        simp [recSet, recGet, h0, hk]
      · simp [recSet, recGet, h0, h1, ih]

/-- Key presence after a set. -/
theorem recHasKey_recSet (r : Rec) (k k' : Str) (v : Py) :
    recHasKey (recSet r k v) k' = (decide (k = k') || recHasKey r k') := by
  induction r with
  | nil => by_cases h : k = k' <;> simp [recSet, recHasKey, h]
  | cons kv t ih =>
    obtain ⟨k0, v0⟩ := kv
    by_cases h0 : k0 = k
    · subst h0
      by_cases h1 : k0 = k'
      · subst h1
        simp [recSet, recHasKey]
      · simp [recSet, recHasKey, h1]
    · by_cases h1 : k0 = k'
      · subst h1
        have hk : ¬ k = k0 := fun h => h0 h.symm
        simp [recSet, recHasKey, h0, hk]
      · simp [recSet, recHasKey, h0, h1, ih]

/-- Signed bracket balance of a string: opening minus closing brackets. -/
def brBal (s : Str) : Int := (s.count '[' : Int) - (s.count ']' : Int)

/-- Balance of a cons. -/
theorem brBal_cons (c : Char) (q : Str) :
    brBal (c :: q) =
      (if c = '[' then 1 else if c = ']' then (-1 : Int) else 0) + brBal q := by
  simp only [brBal, List.count_cons]
  by_cases h1 : c = '[' <;> by_cases h2 : c = ']' <;> simp [h1, h2] <;> omega

/-- The bracket-matching loop, entered with a positive count, returns a
prefix of its input whose balance brings the count to zero exactly at its
end: the prefix ends in a closing bracket and every strictly shorter
prefix keeps the count positive. -/
theorem bracketScanPre_spec :
    ∀ (l : Str) (cnt : Int) (p : Str), 1 ≤ cnt → bracketScanPre l cnt = some p →
      (∃ t, p ++ t = l) ∧ cnt + brBal p = 0 ∧ p.getLast? = some ']' ∧
      ∀ k, k < p.length → 0 < cnt + brBal (p.take k) := by
  intro l
  induction l with
  | nil => intro cnt p h1 h2; simp [bracketScanPre] at h2
  | cons c rest ih =>
    intro cnt p h1 h2
    simp only [bracketScanPre] at h2
    by_cases hc1 : c = '['
    · rw [if_pos hc1] at h2
      cases hp : bracketScanPre rest (cnt + 1) with
      | none => rw [hp] at h2; simp at h2
      | some p' =>
        rw [hp] at h2
        simp only [Option.map_some', Option.some.injEq] at h2
        obtain ⟨⟨t, ht⟩, hbal, hlast, hpref⟩ := ih (cnt + 1) p' (by omega) hp
        subst h2
        refine ⟨⟨t, by simp [ht]⟩, ?_, ?_, ?_⟩
        · rw [brBal_cons, if_pos hc1]; omega
        · cases p' with
          | nil => simp at hlast
          | cons x xs => simpa using hlast
        · intro k hk
          cases k with
          | zero => simpa [brBal] using h1
          | succ j =>
            have hj : j < p'.length := by simpa using hk
            have := hpref j hj
            simp only [List.take_succ_cons]
            rw [brBal_cons, if_pos hc1]
            omega
    · by_cases hc2 : c = ']'
      · rw [if_neg hc1, if_pos hc2] at h2
        by_cases hz : cnt - 1 = 0
        · rw [if_pos hz] at h2
          simp only [Option.some.injEq] at h2
          subst h2
          refine ⟨⟨rest, rfl⟩, ?_, by simp [hc2], ?_⟩
          · rw [brBal_cons, if_neg hc1, if_pos hc2, brBal]; simp; omega
          · intro k hk
            simp only [List.length_cons, List.length_nil] at hk
            interval_cases k
            simpa [brBal] using h1
        · rw [if_neg hz] at h2
          cases hp : bracketScanPre rest (cnt - 1) with
          | none => rw [hp] at h2; simp at h2
          | some p' =>
            rw [hp] at h2
            simp only [Option.map_some', Option.some.injEq] at h2
            obtain ⟨⟨t, ht⟩, hbal, hlast, hpref⟩ := ih (cnt - 1) p' (by omega) hp
            subst h2
            refine ⟨⟨t, by simp [ht]⟩, ?_, ?_, ?_⟩
            · rw [brBal_cons, if_neg hc1, if_pos hc2]; omega
            · cases p' with
              | nil => simp at hlast
              | cons x xs => simpa using hlast
            · intro k hk
              cases k with
              | zero => simpa [brBal] using h1
              | succ j =>
                have hj : j < p'.length := by simpa using hk
                have := hpref j hj
                simp only [List.take_succ_cons]
                rw [brBal_cons, if_neg hc1, if_pos hc2]
                omega
      · rw [if_neg hc1, if_neg hc2] at h2
        cases hp : bracketScanPre rest cnt with
        | none => rw [hp] at h2; simp at h2
        | some p' =>
          rw [hp] at h2
          simp only [Option.map_some', Option.some.injEq] at h2
          obtain ⟨⟨t, ht⟩, hbal, hlast, hpref⟩ := ih cnt p' h1 hp
          subst h2
          refine ⟨⟨t, by simp [ht]⟩, ?_, ?_, ?_⟩
          · rw [brBal_cons, if_neg hc1, if_neg hc2]; omega
          · cases p' with
            | nil => simp at hlast
            | cons x xs => simpa using hlast
          · intro k hk
            cases k with
            | zero => simpa [brBal] using h1
            | succ j =>
              have hj : j < p'.length := by simpa using hk
              have := hpref j hj
              simp only [List.take_succ_cons]
              rw [brBal_cons, if_neg hc1, if_neg hc2]
              omega

/-- dropWhile is the identity when the first character fails the test. -/
theorem dropWhile_id_of_head (l : Str) (c : Char) (hh : l.head? = some c)
    (hc : pyIsSpace c = false) : l.dropWhile pyIsSpace = l := by
  cases l with
  | nil => simp at hh
  | cons a t =>
    simp only [List.head?_cons, Option.some.injEq] at hh
    subst hh
    simp [List.dropWhile_cons, hc]

/-- pyStrip is the identity on a string whose first and last characters
are not whitespace. -/
theorem pyStrip_id (s : Str) (c d : Char) (hh : s.head? = some c)
    (hc : pyIsSpace c = false) (hl : s.getLast? = some d) (hd : pyIsSpace d = false) :
    pyStrip s = s := by
  unfold pyStrip
  rw [dropWhile_id_of_head s c hh hc]
  rw [dropWhile_id_of_head s.reverse d (by rw [List.head?_reverse]; exact hl) hd]
  exact List.reverse_reverse s

/-- The x or None idiom never produces an empty string. -/
theorem orNone_ne_emptyStr (v : Py) : orNone v ≠ Py.str [] := by
  unfold orNone
  split_ifs with ht
  · intro h
    rw [h] at ht
    simp [pyTruthy, List.isEmpty] at ht
  · intro h
    exact nomatch h

/-- Whenever _find_bill_list succeeds, the result is a contiguous
substring of the text that starts with an opening bracket, ends with a
closing one, has equal bracket counts, and keeps every nonempty proper
prefix strictly opening-heavy. -/
theorem findBillList_shape (text r : Str) (h : findBillList text = some r) :
    r.head? = some '[' ∧ r.getLast? = some ']' ∧ (∃ a b, a ++ (r ++ b) = text) ∧
    r.count '[' = r.count ']' ∧
    ∀ k, 0 < k → k < r.length → (r.take k).count ']' < (r.take k).count '[' := by
  unfold findBillList at h
  obtain ⟨l₁, p, l₂, hsplit, hnone, hp⟩ := findSome_split _ _ _ h
  unfold tryOccurrence at hp
  generalize hsp : p + ((text.drop p).takeWhile pyIsSpace).length = sp at hp
  cases hdrop : text.drop sp with
  | nil =>
    simp only [hdrop] at hp
    exact nomatch hp
  | cons c rest =>
    simp only [hdrop] at hp
    by_cases hc : c = '['
    · rw [if_pos hc] at hp
      subst hc
      cases hbs : bracketScanPre ('[' :: rest) 0 with
      | none => rw [hbs] at hp; exact absurd hp (by simp)
      | some span =>
        rw [hbs] at hp
        simp only [Option.some.injEq] at hp
        have hbs' : (bracketScanPre rest 1).map ('[' :: ·) = some span := by
          have : bracketScanPre ('[' :: rest) 0 =
              (bracketScanPre rest (0 + 1)).map ('[' :: ·) := by
            simp [bracketScanPre]
          rw [this] at hbs
          simpa using hbs
        cases hinner : bracketScanPre rest 1 with
        | none => rw [hinner] at hbs'; exact absurd hbs' (by simp)
        | some p' =>
          rw [hinner] at hbs'
          simp only [Option.map_some', Option.some.injEq] at hbs'
          obtain ⟨⟨t, ht⟩, hbal, hlast, hpref⟩ :=
            bracketScanPre_spec rest 1 p' (by omega) hinner
          have hspan : span = '[' :: p' := hbs'.symm
          subst hspan
          have hplast : ('[' :: p').getLast? = some ']' := by
            cases p' with
            | nil => simp at hlast
            | cons x xs => simpa using hlast
          have hstrip : pyStrip ('[' :: p') = '[' :: p' :=
            pyStrip_id _ '[' ']' (by simp) (by decide) hplast (by decide)
          rw [hstrip] at hp
          subst hp
          refine ⟨by simp, hplast, ?_, ?_, ?_⟩
          · refine ⟨text.take sp, t, ?_⟩
            have : ('[' :: p') ++ t = '[' :: rest := by simp [ht]
            rw [this, ← hdrop]
            exact List.take_append_drop sp text
          · have hb : brBal ('[' :: p') = 0 := by
              rw [brBal_cons]
              simp only [reduceIte]
              omega
            simp only [brBal] at hb
            omega
          · intro k hk0 hklen
            cases k with
            | zero => omega
            | succ j =>
              have hj : j < p'.length := by simpa using hklen
              have := hpref j hj
              have hbk : 0 < brBal (('[' :: p').take (j + 1)) := by
                simp only [List.take_succ_cons]
                rw [brBal_cons]
                simp only [reduceIte]
                omega
              simp only [brBal] at hbk
              omega
    · rw [if_neg hc] at hp
      exact absurd hp (by simp)

/-- The only exception a source block can raise is the TypeError of
json.loads on a truthy non-string value. -/
theorem billInner_some (im : PyDict) (k : Str) (s : Str)
    (h : billInner im k = some s) : ∃ t, findBillList t = some s := by
  unfold billInner at h
  cases hv : pyGet im k (Py.str []) <;> simp only [hv] at h <;>
    try exact Option.noConfusion h
  case str t =>
    split at h
    · exact Option.noConfusion h
    · cases hfb : findBillList t <;> simp only [hfb] at h
      case none => exact Option.noConfusion h
      case some b =>
        split at h
        · exact Option.noConfusion h
        · injection h with h
          rw [h] at hfb
          exact ⟨t, hfb⟩

/-- A candidate produced by the decoded part of a block comes from
_find_bill_list. -/
theorem billFromDecoded_some (inner : Py) (k : Str) (s : Str)
    (h : billFromDecoded inner k = some s) : ∃ t, findBillList t = some s := by
  unfold billFromDecoded at h
  cases inner <;> try exact Option.noConfusion h
  case dict im => exact billInner_some im k s h

/-- The only exception a source block can raise is the TypeError of
json.loads on a truthy non-string value. -/
theorem billCandidate_error (m : PyDict) (a b : Str) (e : Exc)
    (h : billCandidate m a b = .error e) : e = .typeError := by
  unfold billCandidate at h
  cases hv : pyGet m a (Py.str []) <;> simp only [hv] at h
  case str s =>
    split at h
    · exact Except.noConfusion h
    · cases hl : loads s <;> simp only [hl] at h <;> exact Except.noConfusion h
  all_goals
    split at h
    case isTrue => injection h with h; exact h.symm
    case isFalse => exact Except.noConfusion h

/-- A candidate produced by a source block comes from _find_bill_list. -/
theorem billCandidate_ok_some (m : PyDict) (a b : Str) (s : Str)
    (h : billCandidate m a b = .ok (some s)) : ∃ t, findBillList t = some s := by
  unfold billCandidate at h
  cases hv : pyGet m a (Py.str []) <;> simp only [hv] at h
  case str s0 =>
    split at h
    · injection h with h
      exact Option.noConfusion h
    · cases hl : loads s0 <;> simp only [hl] at h
      case error => injection h with h; exact Option.noConfusion h
      case ok inner =>
        injection h with h
        exact billFromDecoded_some inner b s h
  all_goals
    split at h
    case isTrue => exact Except.noConfusion h
    case isFalse => injection h with h; exact Option.noConfusion h

/-- _extract_bill_info raises only TypeError or AttributeError, never
json.JSONDecodeError. -/
theorem extractBillInfo_error (d : Py) (e : Exc)
    (h : extractBillInfo d = .error e) : e = .typeError ∨ e = .attributeError := by
  unfold extractBillInfo at h
  cases d <;> try (injection h with h; exact Or.inr h.symm)
  case dict m =>
    cases h1 : billCandidate m (chars "analysisResult") (chars "message_interpretation") <;>
      simp only [h1] at h
    case error e1 =>
      injection h with h
      exact Or.inl (by rw [← h]; exact billCandidate_error _ _ _ _ h1)
    case ok c1 =>
      cases h2 : billCandidate m (chars "promptParam") (chars "reference") <;>
        simp only [h2] at h
      case error e2 =>
        injection h with h
        exact Or.inl (by rw [← h]; exact billCandidate_error _ _ _ _ h2)
      case ok c2 => exact Except.noConfusion h

/-- A candidate delivered by _extract_bill_info comes from
_find_bill_list. -/
theorem extractBillInfo_ok_some (d : Py) (s : Str)
    (h : extractBillInfo d = .ok (some s)) : ∃ t, findBillList t = some s := by
  unfold extractBillInfo at h
  cases d <;> try exact Except.noConfusion h
  case dict m =>
    cases h1 : billCandidate m (chars "analysisResult") (chars "message_interpretation") <;>
      simp only [h1] at h
    case error e1 => exact Except.noConfusion h
    case ok c1 =>
      cases h2 : billCandidate m (chars "promptParam") (chars "reference") <;>
        simp only [h2] at h
      case error e2 => exact Except.noConfusion h
      case ok c2 =>
        injection h with h
        cases c1 <;> cases c2
        case none.none => simp [Option.toList] at h
        case none.some b =>
          simp only [Option.toList, List.nil_append, List.getLast?_singleton,
            Option.some.injEq] at h
          rw [h] at h2
          exact billCandidate_ok_some _ _ _ _ h2
        case some.none a =>
          simp only [Option.toList, List.append_nil, List.getLast?_singleton,
            Option.some.injEq] at h
          rw [h] at h1
          exact billCandidate_ok_some _ _ _ _ h1
        case some.some a b =>
          simp only [Option.toList] at h
          have : ([a] ++ [b] : List Str).getLast? = some b := by simp
          rw [this] at h
          injection h with h
          rw [h] at h2
          exact billCandidate_ok_some _ _ _ _ h2

/-- extract_fields_from_log_data raises AttributeError on a non-dict, and
otherwise raises exactly what the bill extraction raises. -/
theorem extractFields_error (billF : Py → Except Exc (Option Str)) (d : Py) (e : Exc)
    (h : extractFieldsFromLogData billF d = .error e) :
    e = .attributeError ∨ billF d = .error e := by
  unfold extractFieldsFromLogData at h
  cases d <;> try (injection h with h; exact Or.inl h.symm)
  case dict m =>
    cases hb : billF (Py.dict m) <;> simp only [hb] at h
    case error eb =>
      injection h with h
      exact Or.inr (congrArg Except.error h)
    case ok bill => exact Except.noConfusion h

/-- Key presence coincides with a defined lookup. -/
theorem recHasKey_eq_isSome (r : Rec) (k : Str) :
    recHasKey r k = (recGet r k).isSome := by
  induction r with
  | nil => rfl
  | cons kv t ih =>
    obtain ⟨k0, v0⟩ := kv
    by_cases h : k0 = k <;> simp [recHasKey, recGet, h, ih]

/-- A present key has a value. -/
theorem recGet_some_of_hasKey (r : Rec) (k : Str) (h : recHasKey r k = true) :
    ∃ v, recGet r k = some v := by
  rw [recHasKey_eq_isSome] at h
  cases hg : recGet r k with
  | none => rw [hg] at h; exact absurd h (by simp)
  | some v => exact ⟨v, rfl⟩

/-- setOpt with no value is the identity. -/
theorem setOpt_none (r : Rec) (k : Str) : setOpt r k Option.none = r := rfl

/-- setOpt leaves other keys alone. -/
theorem recGet_setOpt_ne (r : Rec) (k k' : Str) (v : Option Py) (h : k ≠ k') :
    recGet (setOpt r k v) k' = recGet r k' := by
  cases v with
  | none => rfl
  | some x =>
    show recGet (recSet r k x) k' = recGet r k'
    rw [recGet_recSet, if_neg h]

/-- setOpt with a value sets its key. -/
theorem recGet_setOpt_self (r : Rec) (k : Str) (x : Py) :
    recGet (setOpt r k (some x)) k = some x := by
  show recGet (recSet r k x) k = some x
  rw [recGet_recSet, if_pos rfl]

/-- ensureKey leaves other keys alone. -/
theorem recGet_ensureKey_ne (r : Rec) (k k' : Str) (h : k ≠ k') :
    recGet (ensureKey r k) k' = recGet r k' := by
  unfold ensureKey
  split
  · rfl
  · rw [recGet_recSet, if_neg h]

/-- ensureKey turns an absent key into an explicit None and keeps a
present value. -/
theorem recGet_ensureKey_eq (r : Rec) (k : Str) :
    recGet (ensureKey r k) k =
      (match recGet r k with | some v => some v | Option.none => some Py.none) := by
  unfold ensureKey
  split
  next h =>
    obtain ⟨v, hv⟩ := recGet_some_of_hasKey r k h
    rw [hv]
  next h =>
    have hnone : recGet r k = Option.none := by
      cases hg : recGet r k with
      | none => rfl
      | some v =>
        rw [recHasKey_eq_isSome, hg] at h
        exact absurd rfl h
    rw [recGet_recSet, if_pos rfl, hnone]

/-- setOpt does not add other keys. -/
theorem recHasKey_setOpt_ne (r : Rec) (k k' : Str) (v : Option Py) (h : k ≠ k') :
    recHasKey (setOpt r k v) k' = recHasKey r k' := by
  cases v with
  | none => rfl
  | some x =>
    show recHasKey (recSet r k x) k' = recHasKey r k'
    rw [recHasKey_recSet]
    simp [h]

/-- ensureKey does not add other keys. -/
theorem recHasKey_ensureKey_ne (r : Rec) (k k' : Str) (h : k ≠ k') :
    recHasKey (ensureKey r k) k' = recHasKey r k' := by
  unfold ensureKey
  split
  · rfl
  · rw [recHasKey_recSet]
    simp [h]

/-- ensureKey guarantees its key. -/
theorem recHasKey_ensureKey_self (r : Rec) (k : Str) :
    recHasKey (ensureKey r k) k = true := by
  unfold ensureKey
  split
  next h => exact h
  next h =>
    rw [recHasKey_recSet]
    simp

/-- A leftmost-position match comes from some start position. -/
theorem scanFor_some {α : Type} (f : Str → Option α) :
    ∀ (l : List Char) (v : α), scanFor f l = some v → ∃ s, f s = some v := by
  intro l
  induction l with
  | nil => intro v h; exact ⟨[], h⟩
  | cons c rest ih =>
    intro v h
    unfold scanFor at h
    cases hf : f (c :: rest) with
    | some w => rw [hf] at h; exact ⟨c :: rest, hf ▸ h⟩
    | none => rw [hf] at h; exact ih v h

/-- A bill span matched by the fallback pattern is bracketed and
nonempty. -/
theorem tryBillAt_some (s : Str) (v : Str) (h : tryBillAt s = some v) :
    ∃ inner, v = '[' :: inner ++ [']'] := by
  unfold tryBillAt at h
  split at h
  · split at h
    next r =>
      split at h
      · injection h with h
        exact ⟨_, h.symm⟩
      · exact Option.noConfusion h
    all_goals try exact Option.noConfusion h
  · exact Option.noConfusion h

/-- setOpt has its key exactly when it sets a value or the key was
already there. -/
theorem recHasKey_setOpt_self (r : Rec) (k : Str) (v : Option Py) :
    recHasKey (setOpt r k v) k = (v.isSome || recHasKey r k) := by
  cases v with
  | none => simp [setOpt]
  | some x =>
    show recHasKey (recSet r k x) k = _
    rw [recHasKey_recSet]
    simp

/-- In a record without the key, every entry has another key. -/
theorem recHasKey_false_ne (r : Rec) (k : Str) (h : recHasKey r k = false) :
    ∀ kv ∈ r, kv.1 ≠ k := by
  induction r with
  | nil => intro kv hkv; simp at hkv
  | cons kv0 t ih =>
    obtain ⟨k0, v0⟩ := kv0
    simp only [recHasKey, Bool.or_eq_false_iff, decide_eq_false_iff_not] at h
    intro kv hkv
    rcases List.mem_cons.mp hkv with rfl | hkv'
    · exact h.1
    · exact ih h.2 kv hkv'

/-- After the first member the loop writes a separator and continues as
from the start. -/
theorem dumpRecBody_false_cons (kv : Str × Py) (t : Rec) :
    dumpRecBody (kv :: t) false = chars ", " ++ dumpRecBody (kv :: t) true := by
  obtain ⟨k, v⟩ := kv
  simp [dumpRecBody, List.append_assoc]

/-- The member loop writes precisely the members joined by the
separator. -/
theorem dumpRecBody_true_eq (r : Rec) :
    dumpRecBody r true = joinSep (chars ", ") (dumpMembers r) := by
  induction r with
  | nil => rfl
  | cons kv t ih =>
    obtain ⟨k, v⟩ := kv
    cases t with
    | nil => simp [dumpRecBody, dumpMembers, dumpMember, joinSep]
    | cons kv2 t2 =>
      have h1 : dumpRecBody ((k, v) :: kv2 :: t2) true =
          (dumpStr k ++ chars ": " ++ dumpPy v) ++ dumpRecBody (kv2 :: t2) false := by
        simp [dumpRecBody, List.append_assoc]
      rw [h1, dumpRecBody_false_cons, ih]
      simp [dumpMembers, dumpMember, joinSep, List.append_assoc]

/-- json.dump writes one member per record key, in insertion order,
comma separated between braces. -/
theorem dumpRec_joinSep (r : Rec) :
    dumpRec r = '\x7b' :: joinSep (chars ", ") (dumpMembers r) ++ ['\x7d'] := by
  unfold dumpRec
  rw [dumpRecBody_true_eq]

/-- A key mapped to Python None serializes as a null member. -/
theorem dumpMembers_null_of_none (r : Rec) (k : Str)
    (h : recGet r k = some Py.none) :
    (dumpStr k ++ chars ": " ++ chars "null") ∈ dumpMembers r := by
  induction r with
  | nil => simp [recGet] at h
  | cons kv t ih =>
    obtain ⟨k0, v0⟩ := kv
    by_cases hk : k0 = k
    · subst hk
      have hv : v0 = Py.none := by
        have : recGet ((k0, v0) :: t) k0 = some v0 := by simp [recGet]
        rw [this] at h
        exact Option.some.inj h
      subst hv
      exact List.mem_cons.mpr (Or.inl rfl)
    · simp only [recGet, if_neg hk] at h
      exact List.mem_cons.mpr (Or.inr (ih h))

/-- Every member of a record without the key comes from an entry with a
different key: the absent key contributes no member. -/
theorem dumpMembers_src (r : Rec) (k : Str) (h : recHasKey r k = false) :
    ∀ m ∈ dumpMembers r, ∃ kv, kv ∈ r ∧ kv.1 ≠ k ∧ m = dumpMember kv := by
  intro m hm
  obtain ⟨kv, hkv, hmeq⟩ := List.mem_map.mp hm
  exact ⟨kv, hkv, recHasKey_false_ne r k h kv hkv, hmeq.symm⟩

/-- The CSV conversion keeps the key sequence. -/
theorem csvRow_keys (r : Rec) : (csvRow r).map Prod.fst = r.map Prod.fst := by
  induction r with
  | nil => rfl
  | cons kv t ih =>
    obtain ⟨k0, v0⟩ := kv
    cases v0 <;> simpa [csvRow] using ih

/-- The CSV conversion leaves no None value. -/
theorem csvRow_no_none (r : Rec) : ∀ kv ∈ csvRow r, kv.2 ≠ Py.none := by
  induction r with
  | nil => intro kv h; simp [csvRow] at h
  | cons kv t ih =>
    obtain ⟨k0, v0⟩ := kv
    intro p hp
    cases v0 <;> simp only [csvRow, List.map_cons, List.mem_cons] at hp <;>
      rcases hp with hp | hp <;>
        first
          | (subst hp; simp)
          | exact ih p (by simpa [csvRow] using hp)

/-- The escape state the fallback reply loop carries at a position: the
fold of the toggle-on-backslash rule over the characters already
scanned (the flag is toggled by each backslash and left unchanged by
every other character, with no reset). -/
def escFoldFrom (e : Bool) (p : Str) : Bool :=
  p.foldl (fun b c => if c = '\\' then !b else b) e

/-- The lookahead test of the claim: after skipping whitespace, the next
non-whitespace character is a comma, a closing brace or a newline (the
newline alternative is vacuous, a newline being whitespace, but it is the
test the code writes). -/
def lookOkB (after : Str) : Bool :=
  match after.dropWhile pyIsSpace with
  | [] => false
  | nc :: _ => nc = ',' || nc = '\x7d' || nc = '\n'

/-- The claim's terminator test at local position j of the scanned
suffix: an ASCII double quote, not in escaped state, whose lookahead
passes. -/
def isTermB (l : Str) (e : Bool) (j : Nat) : Bool :=
  match l.drop j with
  | [] => false
  | c :: rest => c = '"' && !(escFoldFrom e (l.take j)) && lookOkB rest

/-- Stepping the terminator test over one scanned character updates the
escape seed by the toggle rule. -/
theorem isTermB_cons (c : Char) (rest : Str) (e : Bool) (j : Nat) :
    isTermB (c :: rest) e (j + 1) =
      isTermB rest (if c = '\\' then !e else e) j := rfl

/-- The reply scan stops exactly at the least position satisfying the
terminator test, and runs to the end when no position satisfies it. -/
theorem replyScan_least (l : Str) :
    ∀ (i : Nat) (e : Bool),
      i ≤ replyScanAux l i e ∧ replyScanAux l i e ≤ i + l.length ∧
      (∀ j, j < replyScanAux l i e - i → isTermB l e j = false) ∧
      (replyScanAux l i e - i < l.length →
        isTermB l e (replyScanAux l i e - i) = true) := by
  induction l with
  | nil =>
    intro i e
    simp [replyScanAux, isTermB]
  | cons c rest ih =>
    intro i e
    have hstep : replyScanAux (c :: rest) i e =
        (if c = '\\' then replyScanAux rest (i + 1) (!e)
         else if c = '"' ∧ e = false then
           match rest.dropWhile pyIsSpace with
           | [] => replyScanAux rest (i + 1) e
           | nc :: _ =>
             if nc = ',' ∨ nc = '\x7d' ∨ nc = '\n' then i
             else replyScanAux rest (i + 1) e
         else replyScanAux rest (i + 1) e) := rfl
    by_cases hc : c = '\\'
    · subst hc
      rw [hstep, if_pos rfl]
      obtain ⟨ih1, ih2, ih3, ih4⟩ := ih (i + 1) (!e)
      refine ⟨by omega, by simp only [List.length_cons]; omega, ?_, ?_⟩
      · intro j hj
        cases j with
        | zero => rfl
        | succ j' =>
          rw [isTermB_cons, if_pos rfl]
          exact ih3 j' (by omega)
      · intro hlt
        have hR : replyScanAux rest (i + 1) (!e) - i =
            (replyScanAux rest (i + 1) (!e) - (i + 1)) + 1 := by omega
        rw [hR, isTermB_cons, if_pos rfl]
        apply ih4
        simp only [List.length_cons] at hlt
        omega
    · -- c is not a backslash: the seed is unchanged whichever branch runs
      have htrans : ∀ j, isTermB (c :: rest) e (j + 1) = isTermB rest e j := by
        intro j
        rw [isTermB_cons, if_neg hc]
      by_cases hq : c = '"' ∧ e = false
      · obtain ⟨hc', he⟩ := hq
        subst hc'
        subst he
        cases hD : rest.dropWhile pyIsSpace with
        | nil =>
          have hred : replyScanAux ('"' :: rest) i false =
              replyScanAux rest (i + 1) false := by
            rw [hstep, if_neg hc, if_pos ⟨rfl, rfl⟩, hD]
          rw [hred]
          obtain ⟨ih1, ih2, ih3, ih4⟩ := ih (i + 1) false
          refine ⟨by omega, by simp only [List.length_cons]; omega, ?_, ?_⟩
          · intro j hj
            cases j with
            | zero =>
              show (('"' = '"' : Bool) && !(escFoldFrom false []) && lookOkB rest)
                = false
              simp [lookOkB, hD]
            | succ j' =>
              rw [htrans]
              exact ih3 j' (by omega)
          · intro hlt
            have hR : replyScanAux rest (i + 1) false - i =
                (replyScanAux rest (i + 1) false - (i + 1)) + 1 := by omega
            rw [hR, htrans]
            apply ih4
            simp only [List.length_cons] at hlt
            omega
        | cons nc tl =>
          by_cases hnc : nc = ',' ∨ nc = '\x7d' ∨ nc = '\n'
          · have hred : replyScanAux ('"' :: rest) i false = i := by
              rw [hstep, if_neg hc, if_pos ⟨rfl, rfl⟩, hD]
              exact if_pos hnc
            rw [hred]
            refine ⟨le_refl i, by simp only [List.length_cons]; omega, ?_, ?_⟩
            · intro j hj
              omega
            · intro _
              have h0 : i - i = 0 := by omega
              rw [h0]
              simp [isTermB, escFoldFrom, lookOkB, hD]
              rcases hnc with h | h | h <;> simp [h]
          · have hred : replyScanAux ('"' :: rest) i false =
                replyScanAux rest (i + 1) false := by
              rw [hstep, if_neg hc, if_pos ⟨rfl, rfl⟩, hD]
              exact if_neg hnc
            rw [hred]
            obtain ⟨ih1, ih2, ih3, ih4⟩ := ih (i + 1) false
            refine ⟨by omega, by simp only [List.length_cons]; omega, ?_, ?_⟩
            · intro j hj
              cases j with
              | zero =>
                show (('"' = '"' : Bool) && !(escFoldFrom false []) && lookOkB rest)
                  = false
                simp [lookOkB, hD]
                intro h1
                rcases h1 with h1 | h1
                all_goals simp_all
              | succ j' =>
                rw [htrans]
                exact ih3 j' (by omega)
            · intro hlt
              have hR : replyScanAux rest (i + 1) false - i =
                  (replyScanAux rest (i + 1) false - (i + 1)) + 1 := by omega
              rw [hR, htrans]
              apply ih4
              simp only [List.length_cons] at hlt
              omega
      · rw [hstep, if_neg hc, if_neg hq]
        obtain ⟨ih1, ih2, ih3, ih4⟩ := ih (i + 1) e
        refine ⟨by omega, by simp only [List.length_cons]; omega, ?_, ?_⟩
        · intro j hj
          cases j with
          | zero =>
            show ((c = '"' : Bool) && !(escFoldFrom e []) && lookOkB rest) = false
            rcases not_and_or.mp hq with h | h
            · simp [h]
            · have he : e = true := by
                cases e
                · exact absurd rfl h
                · rfl
              subst he
              simp [escFoldFrom]
          | succ j' =>
            rw [htrans]
            exact ih3 j' (by omega)
        · intro hlt
          have hR : replyScanAux rest (i + 1) e - i =
              (replyScanAux rest (i + 1) e - (i + 1)) + 1 := by omega
          rw [hR, htrans]
          apply ih4
          simp only [List.length_cons] at hlt
          omega

/-! The claim theorems. -/

/-- C1: the always-produce-a-Record claim fails on the code.  For the
non-blank line hello, which contains neither the separator nor an opening
brace, parse_log_line returns None rather than a Record (log_parser.py
line 44), and parse_log_file therefore prints the warning its own comment
says should never happen (lines 313-314) and emits no record for the
line. -/
theorem c1_no_brace_line_yields_no_record :
    parseLogLine (chars "hello") = Option.none ∧
    parseLogFile (fun _ => FsEntry.lines [chars "hello"]) (chars "a.log") =
      ([chars "警告: 第1行解析失败"], []) :=
  ⟨rfl, rfl⟩

/-- C2: counterexample.  For this line the located candidate fails to
decode while its quote-repaired form decodes to a mapping with messageUser
hi, so the claim predicts the structurally extracted record with query hi;
the code instead runs the fallback scanner at once and returns a record
with query missing, a different record. -/
theorem c2_counterexample :
    loads (chars "\x7b'messageUser': 'hi'\x7d") = .error .jsonDecodeError ∧
    loads (pyReplace (chars "\x7b'messageUser': 'hi'\x7d") (chars "'") (chars "\"")) =
      .ok (Py.dict (.cons (chars "messageUser") (.str (chars "hi")) .nil)) ∧
    extractFieldsFromLogData extractBillInfo
        (Py.dict (.cons (chars "messageUser") (.str (chars "hi")) .nil)) =
      .ok [(chars "query", Py.str (chars "hi")), (chars "bill_info", Py.none),
           (chars "reply", Py.none), (chars "user_id", Py.none),
           (chars "session_id", Py.none), (chars "user_intention", Py.none),
           (chars "success_flag", Py.none)] ∧
    parseLogLine (chars "a - \x7b'messageUser': 'hi'\x7d") =
      some [(chars "query", Py.none), (chars "bill_info", Py.none),
            (chars "reply", Py.none)] ∧
    ([(chars "query", Py.none), (chars "bill_info", Py.none),
      (chars "reply", Py.none)] : Rec) ≠
      [(chars "query", Py.str (chars "hi")), (chars "bill_info", Py.none),
       (chars "reply", Py.none), (chars "user_id", Py.none),
       (chars "session_id", Py.none), (chars "user_intention", Py.none),
       (chars "success_flag", Py.none)] := by
  refine ⟨rfl, rfl, rfl, rfl, by decide⟩

/-- C2 (amended): whenever the located candidate fails to decode as JSON,
the fallback scanner runs at once and its record is the result; the
quote-repair re-decode of lines 77-88 hangs on the outer handler, which a
candidate decode failure never reaches. -/
theorem c2_amended_decode_failure_runs_fallback (logLine cand : Str) (e : Exc)
    (h1 : locateCandidate (pyStrip logLine) = some cand)
    (h2 : loads cand = .error e) :
    parseLogLine logLine = some (fallbackParse (pyStrip logLine)) := by
  simp only [parseLogLine, parseLogLineCore, h1, h2]

/-- C2 (amended), witness at a concrete line whose candidate fails to
decode. -/
theorem c2_amended_witness :
    locateCandidate (pyStrip (chars "a - \x7b'messageUser': 'hi'\x7d")) =
      some (chars "\x7b'messageUser': 'hi'\x7d") ∧
    loads (chars "\x7b'messageUser': 'hi'\x7d") = .error .jsonDecodeError ∧
    parseLogLine (chars "a - \x7b'messageUser': 'hi'\x7d") =
      some (fallbackParse (pyStrip (chars "a - \x7b'messageUser': 'hi'\x7d"))) :=
  ⟨rfl, rfl, c2_amended_decode_failure_runs_fallback _ _ .jsonDecodeError rfl rfl⟩

/-- C3: the right-to-left first-complete policy of _find_bill_list.  The
pinned fixture returns the leftmost occurrence because the rightmost one
is unterminated; a marker occurrence whose first non-whitespace character
is not an opening bracket yields nothing and the scan moves on; and every
successful search splits the reversed occurrence list so that all
occurrences scanned before the hit (the later ones in the text) yield
nothing. -/
theorem c3_last_complete_list_policy :
    findBillList
        (chars "...账单:[\x7b'类别':'支出'\x7d] 账单:[\x7b'类别':'支出'") =
      some (chars "[\x7b'类别':'支出'\x7d]") ∧
    (∀ (text : Str) (p : Nat) (c : Char) (rest : Str),
      text.drop (p + ((text.drop p).takeWhile pyIsSpace).length) = c :: rest →
      ¬ c = '[' → tryOccurrence text p = Option.none) ∧
    (∀ (text r : Str), findBillList text = some r →
      ∃ l₁ p l₂,
        ((occurrences text (chars "账单:")).map (· + 3)).reverse =
          l₁ ++ p :: l₂ ∧
        (∀ q ∈ l₁, tryOccurrence text q = Option.none) ∧
        tryOccurrence text p = some r) := by
  refine ⟨by decide, ?_, ?_⟩
  · intro text p c rest hdrop hc
    simp only [tryOccurrence, hdrop, if_neg hc]
  · intro text r h
    unfold findBillList at h
    exact findSome_split _ _ _ h

/-- C3, witness: the skip conjunct applied where the marker is followed
by a plain character, and the split conjunct applied at a small input. -/
theorem c3_witness :
    tryOccurrence (chars "账单:x") 3 = Option.none ∧
    (∃ l₁ p l₂,
      ((occurrences (chars "账单:[]") (chars "账单:")).map (· + 3)).reverse =
        l₁ ++ p :: l₂ ∧
      (∀ q ∈ l₁, tryOccurrence (chars "账单:[]") q = Option.none) ∧
      tryOccurrence (chars "账单:[]") p = some (chars "[]")) :=
  ⟨c3_last_complete_list_policy.2.1 (chars "账单:x") 3 'x' [] rfl (by decide),
   c3_last_complete_list_policy.2.2 (chars "账单:[]") (chars "[]") rfl⟩

/-- C5: counterexample.  The value parse_log_file and
parse_log_file_stream return to the caller is the same empty result list
whether the file is missing, unreadable, or present and empty: neither
condition is surfaced to the caller as a distinguishable terminal
condition; both are caught internally and only a message is printed. -/
theorem c5_counterexample :
    (parseLogFile (fun _ => FsEntry.missing) (chars "a.log")).2 = [] ∧
    (parseLogFile (fun _ => FsEntry.readError (chars "io")) (chars "a.log")).2 = [] ∧
    (parseLogFile (fun _ => FsEntry.lines []) (chars "a.log")).2 = [] ∧
    (parseLogFileStream (fun _ => FsEntry.missing) (chars "a.log")).2 = [] ∧
    (parseLogFileStream (fun _ => FsEntry.readError (chars "io")) (chars "a.log")).2 = [] ∧
    (parseLogFileStream (fun _ => FsEntry.lines []) (chars "a.log")).2 = [] :=
  ⟨rfl, rfl, rfl, rfl, rfl, rfl⟩

/-- C5 (amended): both file operations catch a missing file and a read
error internally, print one of two distinct diagnostic messages, and
return normally with an empty result list; nothing propagates to the
caller. -/
theorem c5_amended_file_errors_printed_not_raised (fs : Fs) (path m : Str) :
    (fs path = FsEntry.missing →
      parseLogFile fs path = ([chars "错误: 文件不存在 - " ++ path], []) ∧
      parseLogFileStream fs path = ([chars "错误: 文件不存在 - " ++ path], [])) ∧
    (fs path = FsEntry.readError m →
      parseLogFile fs path = ([chars "读取文件错误: " ++ m], []) ∧
      parseLogFileStream fs path = ([chars "读取文件错误: " ++ m], [])) ∧
    chars "错误: 文件不存在 - " ≠ chars "读取文件错误: " := by
  refine ⟨?_, ?_, by decide⟩
  · intro h
    unfold parseLogFile parseLogFileStream
    rw [h]
    exact ⟨rfl, rfl⟩
  · intro h
    unfold parseLogFile parseLogFileStream
    rw [h]
    exact ⟨rfl, rfl⟩

/-- C5 (amended), witness at concrete file systems. -/
theorem c5_amended_witness :
    parseLogFile (fun _ => FsEntry.missing) (chars "b.log") =
      ([chars "错误: 文件不存在 - " ++ chars "b.log"], []) ∧
    parseLogFileStream (fun _ => FsEntry.readError (chars "io")) (chars "b.log") =
      ([chars "读取文件错误: " ++ chars "io"], []) :=
  ⟨((c5_amended_file_errors_printed_not_raised (fun _ => FsEntry.missing)
      (chars "b.log") (chars "io")).1 rfl).1,
   ((c5_amended_file_errors_printed_not_raised (fun _ => FsEntry.readError (chars "io"))
      (chars "b.log") (chars "io")).2.1 rfl).2⟩

/-- C7: counterexample.  A line whose candidate fails to decode produces a
fallback record; handed to the serializers by the pipeline it carries only
the three core keys plus line_number, with no success_flag key (and no
user_id, session_id or user_intention keys), so the all-eight-keys claim
fails: in JSON output the absent keys are simply not present, not null. -/
theorem c7_counterexample :
    (parseLogFile (fun _ => FsEntry.lines [chars "a - \x7b'x': 1\x7d"])
        (chars "a.log")).2 =
      [[(chars "query", Py.none), (chars "bill_info", Py.none),
        (chars "reply", Py.none), (chars "line_number", Py.int 1)]] ∧
    recHasKey [(chars "query", Py.none), (chars "bill_info", Py.none),
        (chars "reply", Py.none), (chars "line_number", Py.int 1)]
      (chars "success_flag") = false :=
  ⟨rfl, rfl⟩

/-- C7 (amended): the key set depends on the tier.  A structurally parsed
record carries exactly the seven field keys; a fallback record always
carries the three core keys, carries user_id, session_id and
user_intention exactly when their pattern matched, and never carries a
success_flag key; the empty result carries exactly the three core keys;
the pipeline attaches the line_number key to every emitted record; the
CSV writers render None as the empty string without changing the key
set; and the JSON sink writes one member per key present, in insertion
order: a key mapped to None is written as a null member and an absent
key contributes no member (the two concrete serializations show the
fallback record lacking any success_flag text and the structural record
carrying the null member). -/
theorem c7_amended_key_sets_by_tier :
    (∀ (billF : Py → Except Exc (Option Str)) (d : Py) (r : Rec),
      extractFieldsFromLogData billF d = .ok r →
      r.map Prod.fst =
        [chars "query", chars "bill_info", chars "reply", chars "user_id",
         chars "session_id", chars "user_intention", chars "success_flag"]) ∧
    (∀ line : Str,
      recHasKey (fallbackParse line) (chars "query") = true ∧
      recHasKey (fallbackParse line) (chars "bill_info") = true ∧
      recHasKey (fallbackParse line) (chars "reply") = true ∧
      recHasKey (fallbackParse line) (chars "success_flag") = false ∧
      recHasKey (fallbackParse line) (chars "user_id") =
        (scanFor tryUserIdAt line).isSome ∧
      recHasKey (fallbackParse line) (chars "session_id") =
        (searchQuotedKey line (chars "sessionId")).isSome ∧
      recHasKey (fallbackParse line) (chars "user_intention") =
        (searchQuotedKey line (chars "userIntention")).isSome) ∧
    createEmptyResult.map Prod.fst =
      [chars "query", chars "bill_info", chars "reply"] ∧
    (∀ (r : Rec) (n : Int),
      recHasKey (recSet r (chars "line_number") (Py.int n))
        (chars "line_number") = true) ∧
    (∀ r : Rec, (csvRow r).map Prod.fst = r.map Prod.fst ∧
      ∀ kv ∈ csvRow r, kv.2 ≠ Py.none) ∧
    (∀ r : Rec,
      dumpRec r = '\x7b' :: joinSep (chars ", ") (dumpMembers r) ++ ['\x7d']) ∧
    (∀ (r : Rec) (k : Str), recGet r k = some Py.none →
      (dumpStr k ++ chars ": " ++ chars "null") ∈ dumpMembers r) ∧
    (∀ (r : Rec) (k : Str), recHasKey r k = false →
      ∀ m ∈ dumpMembers r, ∃ kv, kv ∈ r ∧ kv.1 ≠ k ∧ m = dumpMember kv) ∧
    findSub (dumpRec [(chars "query", Py.none), (chars "bill_info", Py.none),
        (chars "reply", Py.none), (chars "line_number", Py.int 1)])
      (chars "success_flag") = Option.none ∧
    (findSub (dumpRec [(chars "query", Py.none), (chars "bill_info", Py.none),
        (chars "reply", Py.none), (chars "user_id", Py.none),
        (chars "session_id", Py.none), (chars "user_intention", Py.none),
        (chars "success_flag", Py.none)])
      (chars "\"success_flag\": null")).isSome = true := by
  refine ⟨?_, ?_, rfl, ?_, fun r => ⟨csvRow_keys r, csvRow_no_none r⟩,
          dumpRec_joinSep, dumpMembers_null_of_none, dumpMembers_src,
          by decide, by decide⟩
  · intro billF d r h
    unfold extractFieldsFromLogData at h
    cases d <;> try exact Except.noConfusion h
    case dict m =>
      cases hb : billF (Py.dict m) <;> simp only [hb] at h
      case error => exact Except.noConfusion h
      case ok bill =>
        injection h with h
        rw [← h]
        rfl
  · intro line
    unfold fallbackParse
    refine ⟨?_, ?_, ?_, ?_, ?_, ?_, ?_⟩
    · rw [recHasKey_ensureKey_ne _ _ _ (by decide),
          recHasKey_ensureKey_ne _ _ _ (by decide),
          recHasKey_ensureKey_self]
    · rw [recHasKey_ensureKey_ne _ _ _ (by decide), recHasKey_ensureKey_self]
    · rw [recHasKey_ensureKey_self]
    · rw [recHasKey_ensureKey_ne _ _ _ (by decide),
          recHasKey_ensureKey_ne _ _ _ (by decide),
          recHasKey_ensureKey_ne _ _ _ (by decide),
          recHasKey_setOpt_ne _ _ _ _ (by decide),
          recHasKey_setOpt_ne _ _ _ _ (by decide),
          recHasKey_setOpt_ne _ _ _ _ (by decide),
          recHasKey_setOpt_ne _ _ _ _ (by decide),
          recHasKey_setOpt_ne _ _ _ _ (by decide),
          recHasKey_setOpt_ne _ _ _ _ (by decide)]
      rfl
    · rw [recHasKey_ensureKey_ne _ _ _ (by decide),
          recHasKey_ensureKey_ne _ _ _ (by decide),
          recHasKey_ensureKey_ne _ _ _ (by decide),
          recHasKey_setOpt_ne _ _ _ _ (by decide),
          recHasKey_setOpt_ne _ _ _ _ (by decide),
          recHasKey_setOpt_self,
          recHasKey_setOpt_ne _ _ _ _ (by decide),
          recHasKey_setOpt_ne _ _ _ _ (by decide),
          recHasKey_setOpt_ne _ _ _ _ (by decide)]
      cases hx : scanFor tryUserIdAt line <;> rfl
    · rw [recHasKey_ensureKey_ne _ _ _ (by decide),
          recHasKey_ensureKey_ne _ _ _ (by decide),
          recHasKey_ensureKey_ne _ _ _ (by decide),
          recHasKey_setOpt_ne _ _ _ _ (by decide),
          recHasKey_setOpt_self,
          recHasKey_setOpt_ne _ _ _ _ (by decide),
          recHasKey_setOpt_ne _ _ _ _ (by decide),
          recHasKey_setOpt_ne _ _ _ _ (by decide),
          recHasKey_setOpt_ne _ _ _ _ (by decide)]
      cases hx : searchQuotedKey line (chars "sessionId") <;> rfl
    · rw [recHasKey_ensureKey_ne _ _ _ (by decide),
          recHasKey_ensureKey_ne _ _ _ (by decide),
          recHasKey_ensureKey_ne _ _ _ (by decide),
          recHasKey_setOpt_self,
          recHasKey_setOpt_ne _ _ _ _ (by decide),
          recHasKey_setOpt_ne _ _ _ _ (by decide),
          recHasKey_setOpt_ne _ _ _ _ (by decide),
          recHasKey_setOpt_ne _ _ _ _ (by decide),
          recHasKey_setOpt_ne _ _ _ _ (by decide)]
      cases hx : searchQuotedKey line (chars "userIntention") <;> rfl
  · intro r n
    rw [recHasKey_recSet]
    simp

/-- C7 (amended), witness: the structural part applied to the empty
mapping, the fallback parts applied to a bare line, and the JSON-member
parts applied to a one-entry record. -/
theorem c7_amended_witness :
    extractFieldsFromLogData extractBillInfo (Py.dict PyDict.nil) =
      .ok [(chars "query", Py.none), (chars "bill_info", Py.none),
           (chars "reply", Py.none), (chars "user_id", Py.none),
           (chars "session_id", Py.none), (chars "user_intention", Py.none),
           (chars "success_flag", Py.none)] ∧
    ([(chars "query", Py.none), (chars "bill_info", Py.none),
      (chars "reply", Py.none), (chars "user_id", Py.none),
      (chars "session_id", Py.none), (chars "user_intention", Py.none),
      (chars "success_flag", Py.none)] : Rec).map Prod.fst =
      [chars "query", chars "bill_info", chars "reply", chars "user_id",
       chars "session_id", chars "user_intention", chars "success_flag"] ∧
    recHasKey (fallbackParse (chars "x")) (chars "success_flag") = false ∧
    recHasKey (fallbackParse (chars "x")) (chars "user_id") =
      (scanFor tryUserIdAt (chars "x")).isSome ∧
    (dumpStr (chars "query") ++ chars ": " ++ chars "null") ∈
      dumpMembers [(chars "query", Py.none)] ∧
    (∀ m ∈ dumpMembers [(chars "query", Py.none)],
      ∃ kv, kv ∈ [(chars "query", Py.none)] ∧ kv.1 ≠ chars "success_flag" ∧
        m = dumpMember kv) :=
  ⟨rfl,
   c7_amended_key_sets_by_tier.1 extractBillInfo (Py.dict PyDict.nil) _ rfl,
   (c7_amended_key_sets_by_tier.2.1 (chars "x")).2.2.2.1,
   (c7_amended_key_sets_by_tier.2.1 (chars "x")).2.2.2.2.1,
   c7_amended_key_sets_by_tier.2.2.2.2.2.2.1 [(chars "query", Py.none)]
     (chars "query") rfl,
   c7_amended_key_sets_by_tier.2.2.2.2.2.2.2.1 [(chars "query", Py.none)]
     (chars "success_flag") rfl⟩

/-- C8 (amended): in the structural tier the three core fields and the
session_id/user_intention fields are never the empty string (the falsy
normalization and the bracketed shape of located bill lists rule it out),
while user_id and success_flag pass through unmodified and may be empty
strings; in the fallback tier bill_info is never the empty string, while
the quoted-capture fields may be. -/
theorem c8_amended_no_empty_strings :
    (∀ (d : Py) (r : Rec),
      extractFieldsFromLogData extractBillInfo d = .ok r →
      recGet r (chars "query") ≠ some (Py.str []) ∧
      recGet r (chars "bill_info") ≠ some (Py.str []) ∧
      recGet r (chars "reply") ≠ some (Py.str []) ∧
      recGet r (chars "session_id") ≠ some (Py.str []) ∧
      recGet r (chars "user_intention") ≠ some (Py.str [])) ∧
    (∀ line : Str,
      recGet (fallbackParse line) (chars "bill_info") ≠ some (Py.str [])) := by
  constructor
  · intro d r h
    unfold extractFieldsFromLogData at h
    cases d <;> try exact Except.noConfusion h
    case dict m =>
      cases hb : extractBillInfo (Py.dict m) <;> simp only [hb] at h
      case error => exact Except.noConfusion h
      case ok bill =>
        injection h with h
        rw [← h]
        refine ⟨?_, ?_, ?_, ?_, ?_⟩
        · intro hc
          exact orNone_ne_emptyStr _ (Option.some.inj hc)
        · intro hc
          have hv := Option.some.inj hc
          cases bill with
          | none => exact Py.noConfusion hv
          | some b =>
            have hbe : b = [] := by injection hv
            obtain ⟨t, hfb⟩ := extractBillInfo_ok_some (Py.dict m) b hb
            have hshape := (findBillList_shape t b hfb).1
            rw [hbe] at hshape
            exact Option.noConfusion hshape
        · intro hc
          exact orNone_ne_emptyStr _ (Option.some.inj hc)
        · intro hc
          exact orNone_ne_emptyStr _ (Option.some.inj hc)
        · intro hc
          exact orNone_ne_emptyStr _ (Option.some.inj hc)
  · intro line
    unfold fallbackParse
    rw [recGet_ensureKey_ne _ _ _ (by decide), recGet_ensureKey_eq,
        recGet_ensureKey_ne _ _ _ (by decide),
        recGet_setOpt_ne _ _ _ _ (by decide),
        recGet_setOpt_ne _ _ _ _ (by decide),
        recGet_setOpt_ne _ _ _ _ (by decide)]
    cases hb : scanFor tryBillAt line with
    | none =>
      simp only [Option.map_none']
      rw [setOpt_none, recGet_setOpt_ne _ _ _ _ (by decide),
          recGet_setOpt_ne _ _ _ _ (by decide)]
      intro hc
      have := Option.some.inj hc
      exact Py.noConfusion this
    | some v =>
      simp only [Option.map_some']
      rw [recGet_setOpt_self]
      obtain ⟨s, hs⟩ := scanFor_some tryBillAt line v hb
      obtain ⟨inner, hv⟩ := tryBillAt_some s v hs
      intro hc
      have hveq : Py.str v = Py.str [] := Option.some.inj hc
      have : v = [] := by injection hveq
      rw [hv] at this
      exact List.noConfusion this

/-- C8 (amended), witness: the structural part applied to the empty
mapping, and the fallback part applied to a bare line. -/
theorem c8_amended_witness :
    extractFieldsFromLogData extractBillInfo (Py.dict PyDict.nil) =
      .ok [(chars "query", Py.none), (chars "bill_info", Py.none),
           (chars "reply", Py.none), (chars "user_id", Py.none),
           (chars "session_id", Py.none), (chars "user_intention", Py.none),
           (chars "success_flag", Py.none)] ∧
    recGet [(chars "query", Py.none), (chars "bill_info", Py.none),
            (chars "reply", Py.none), (chars "user_id", Py.none),
            (chars "session_id", Py.none), (chars "user_intention", Py.none),
            (chars "success_flag", Py.none)] (chars "query") ≠
      some (Py.str []) ∧
    recGet (fallbackParse (chars "y")) (chars "bill_info") ≠ some (Py.str []) :=
  ⟨rfl,
   (c8_amended_no_empty_strings.1 (Py.dict PyDict.nil) _ rfl).1,
   c8_amended_no_empty_strings.2 (chars "y")⟩

/-- C8: counterexample.  The structural tier passes userId through
unmodified, so a decoded empty-string userId yields a record whose
user_id field is the empty string, not the missing marker. -/
theorem c8_counterexample :
    parseLogLine (chars "a - \x7b\"userId\": \"\"\x7d") =
      some [(chars "query", Py.none), (chars "bill_info", Py.none),
            (chars "reply", Py.none), (chars "user_id", Py.str []),
            (chars "session_id", Py.none), (chars "user_intention", Py.none),
            (chars "success_flag", Py.none)] ∧
    recGet [(chars "query", Py.none), (chars "bill_info", Py.none),
            (chars "reply", Py.none), (chars "user_id", Py.str []),
            (chars "session_id", Py.none), (chars "user_intention", Py.none),
            (chars "success_flag", Py.none)] (chars "user_id") =
      some (Py.str []) :=
  ⟨rfl, rfl⟩

/-- C6: parse_log_line never lets an exception escape.  The embedded
function is total by the outer handlers of lines 77-91, and whenever the
body raises an exception, the result is the empty-result record: the body
can raise only TypeError or AttributeError (every json.JSONDecodeError is
consumed by the inner handler, so the quote-repair branch of the outer
handler is unreachable), and both fall to the catch-all handler of lines
89-91. -/
theorem c6_exceptions_become_empty_result (logLine : Str) (e : Exc) (js : Str)
    (h : parseLogLineCore logLine = .error (e, js)) :
    parseLogLine logLine = some createEmptyResult := by
  have he : e = .typeError ∨ e = .attributeError := by
    simp only [parseLogLineCore] at h
    cases hl : locateCandidate (pyStrip logLine) <;> simp only [hl] at h
    case none => exact Except.noConfusion h
    case some cand =>
      cases hj : loads cand <;> simp only [hj] at h
      case error => exact Except.noConfusion h
      case ok logData =>
        cases hx : extractFieldsFromLogData extractBillInfo logData <;>
          simp only [hx] at h
        case ok r => exact Except.noConfusion h
        case error e2 =>
          injection h with h
          injection h with h1 h2
          rcases extractFields_error extractBillInfo logData e2 hx with h3 | h3
          · exact Or.inr (h1 ▸ h3.symm ▸ rfl)
          · rcases extractBillInfo_error logData e2 h3 with h4 | h4
            · exact Or.inl (h1 ▸ h4.symm ▸ rfl)
            · exact Or.inr (h1 ▸ h4.symm ▸ rfl)
  unfold parseLogLine
  rw [h]
  rcases he with he | he <;> subst he <;> rfl

/-- C6, witness: a line whose candidate decodes to a mapping carrying a
non-string truthy analysisResult, on which the nested json.loads raises
TypeError; the result is the empty record. -/
theorem c6_witness :
    parseLogLineCore (chars "x - \x7b\"analysisResult\": \x7b\"a\": 1\x7d\x7d") =
      .error (.typeError, chars "\x7b\"analysisResult\": \x7b\"a\": 1\x7d\x7d") ∧
    parseLogLine (chars "x - \x7b\"analysisResult\": \x7b\"a\": 1\x7d\x7d") =
      some createEmptyResult :=
  ⟨rfl, c6_exceptions_become_empty_result _ .typeError _ rfl⟩

/-- C4: bill_info extraction precedence.  Whenever both nested source
blocks run without raising, each yielding a candidate or none, the
promptParam/reference candidate wins when present, else the
analysisResult/message_interpretation candidate, else none; and a source
whose truthy string value fails to decode contributes no candidate
without aborting extraction. -/
theorem c4_bill_info_precedence :
    (∀ (m : PyDict) (ca cp : Option Str),
      billCandidate m (chars "analysisResult") (chars "message_interpretation") =
        .ok ca →
      billCandidate m (chars "promptParam") (chars "reference") = .ok cp →
      extractBillInfo (Py.dict m) =
        .ok (match cp with | some p => some p | Option.none => ca)) ∧
    (∀ (m : PyDict) (ko ik s : Str) (e : Exc),
      pyGet m ko (Py.str []) = Py.str s → s.isEmpty = false →
      loads s = .error e →
      billCandidate m ko ik = .ok Option.none) := by
  constructor
  · intro m ca cp h1 h2
    have hred : extractBillInfo (Py.dict m) =
        (match billCandidate m (chars "analysisResult")
            (chars "message_interpretation") with
         | .error e => .error e
         | .ok c1 =>
           match billCandidate m (chars "promptParam") (chars "reference") with
           | .error e => .error e
           | .ok c2 => .ok (c1.toList ++ c2.toList).getLast?) := rfl
    rw [hred, h1, h2]
    cases ca <;> cases cp <;> simp [Option.toList]
  · intro m ko ik s e hg hs hl
    simp [billCandidate, hg, hs, hl]

/-- C4, witness: a mapping whose two nested sources both carry a bill
list; the promptParam/reference candidate wins; and a source whose truthy
string fails to decode yields no candidate. -/
theorem c4_witness :
    billCandidate
      (PyDict.cons (chars "analysisResult")
        (Py.str (chars "\x7b\"message_interpretation\": \"账单:[1]x\"\x7d"))
        (PyDict.cons (chars "promptParam")
          (Py.str (chars "\x7b\"reference\": \"账单:[2]y\"\x7d")) PyDict.nil))
      (chars "analysisResult") (chars "message_interpretation") =
        .ok (some (chars "[1]")) ∧
    billCandidate
      (PyDict.cons (chars "analysisResult")
        (Py.str (chars "\x7b\"message_interpretation\": \"账单:[1]x\"\x7d"))
        (PyDict.cons (chars "promptParam")
          (Py.str (chars "\x7b\"reference\": \"账单:[2]y\"\x7d")) PyDict.nil))
      (chars "promptParam") (chars "reference") = .ok (some (chars "[2]")) ∧
    extractBillInfo (Py.dict
      (PyDict.cons (chars "analysisResult")
        (Py.str (chars "\x7b\"message_interpretation\": \"账单:[1]x\"\x7d"))
        (PyDict.cons (chars "promptParam")
          (Py.str (chars "\x7b\"reference\": \"账单:[2]y\"\x7d")) PyDict.nil))) =
      .ok (some (chars "[2]")) ∧
    billCandidate (PyDict.cons (chars "analysisResult") (Py.str (chars "nope"))
        PyDict.nil) (chars "analysisResult") (chars "message_interpretation") =
      .ok Option.none :=
  ⟨rfl, rfl,
   c4_bill_info_precedence.1 _ (some (chars "[1]")) (some (chars "[2]")) rfl rfl,
   c4_bill_info_precedence.2 _ _ (chars "message_interpretation") (chars "nope")
     .jsonDecodeError rfl rfl rfl⟩

/-- C9: the fallback reply scan stops exactly at the least position
holding an ASCII double quote that is not in escaped state (the rolling
toggle-on-backslash flag) and whose first non-whitespace successor is a
comma, a closing brace or a newline; quotes failing the test, including
full-width quotation marks inside the reply, never stop the scan; and on
termination the backslash-quote and double-backslash escapes are
unescaped, as the concrete line with an escaped quote and full-width
quotes inside the reply value shows. -/
theorem c9_reply_terminator :
    (∀ (l : Str) (i : Nat) (e : Bool),
      i ≤ replyScanAux l i e ∧ replyScanAux l i e ≤ i + l.length ∧
      (∀ j, j < replyScanAux l i e - i → isTermB l e j = false) ∧
      (replyScanAux l i e - i < l.length →
        isTermB l e (replyScanAux l i e - i) = true)) ∧
    recGet (fallbackParse (chars "\"reply\":\"he said \\\"hi\\\" “ok”\", x"))
      (chars "reply") = some (Py.str (chars "he said \"hi\" “ok”")) :=
  ⟨replyScan_least, by decide⟩

/-- C9, witness: the least-terminator fact applied at a concrete suffix
whose quote at position one is followed by a comma. -/
theorem c9_witness :
    isTermB (chars "x\", y") false
      (replyScanAux (chars "x\", y") 0 false - 0) = true :=
  (c9_reply_terminator.1 (chars "x\", y") 0 false).2.2.2 (by decide)

/-- C10: whenever _find_bill_list returns a result, it is a contiguous
substring of the input that begins with an opening bracket, ends with a
closing one, has equal bracket counts, and every nonempty proper prefix
counts strictly more opening than closing brackets. -/
theorem c10_bill_list_invariant (text r : Str) (h : findBillList text = some r) :
    r.head? = some '[' ∧ r.getLast? = some ']' ∧ (∃ a b, a ++ (r ++ b) = text) ∧
    r.count '[' = r.count ']' ∧
    ∀ k, 0 < k → k < r.length → (r.take k).count ']' < (r.take k).count '[' :=
  findBillList_shape text r h

/-- C10, witness at a concrete input. -/
theorem c10_witness :
    findBillList (chars "账单:[]") = some (chars "[]") ∧
    (chars "[]").head? = some '[' ∧ (chars "[]").getLast? = some ']' ∧
    (∃ a b, a ++ (chars "[]" ++ b) = chars "账单:[]") ∧
    (chars "[]").count '[' = (chars "[]").count ']' :=
  ⟨rfl, (c10_bill_list_invariant (chars "账单:[]") (chars "[]") rfl).1,
   (c10_bill_list_invariant (chars "账单:[]") (chars "[]") rfl).2.1,
   (c10_bill_list_invariant (chars "账单:[]") (chars "[]") rfl).2.2.1,
   (c10_bill_list_invariant (chars "账单:[]") (chars "[]") rfl).2.2.2.1⟩

end LogParser
